import Mathlib

/-!
Verification of the change-classification engine of the autonomous-dev-studio
repository (src/server/routes.ts, the "/api/analyze-change" handler).

The handler computes positional diff statistics between the old and the new
artifact content, applies a three-condition threshold policy and builds a
recommendation record with a human-readable reasoning string.  The definitions
below are a shallow embedding of that handler; the theorems settle the claims
of the specification against them.
-/

namespace Studio

/-- Diff statistics accumulated by the handler's loop:
`linesChanged` and `locationsChanged` (src/server/routes.ts lines 312-327). -/
structure DiffStats where
  linesChanged : Nat
  locationsChanged : Nat
deriving Repr, DecidableEq

/-- The three bounds read from `session.config`
(`maxLinesForUpdate`, `maxLocationsForUpdate`, `maxIterationsPerUpdate`). -/
structure Thresholds where
  maxLinesForUpdate : Int
  maxLocationsForUpdate : Int
  maxIterationsPerUpdate : Int
deriving Repr, DecidableEq

/-- One step of the diff loop body for index `i`
(`if (oldLines[i] !== newLines[i]) ... else inChangeBlock = false`).
State is `(linesChanged, locationsChanged, inChangeBlock)`.
A missing index yields `none`, which differs from every present line,
exactly as JS `undefined` differs from every string. -/
def diffStep (oldLines newLines : List String) (s : Nat × Nat × Bool) (i : Nat) :
    Nat × Nat × Bool :=
  if oldLines[i]? ≠ newLines[i]? then
    (s.1 + 1, if s.2.2 then s.2.1 else s.2.1 + 1, true)
  else
    (s.1, s.2.1, false)

/-- The diff loop: `for (let i = 0; i < maxLength; i++)` over
`maxLength = Math.max(oldLines.length, newLines.length)`
(src/server/routes.ts lines 316-327). -/
def computeDiffStats (oldLines newLines : List String) : DiffStats :=
  let maxLength := max oldLines.length newLines.length
  let r := (List.range maxLength).foldl (diffStep oldLines newLines) (0, 0, false)
  ⟨r.1, r.2.1⟩

/-- `shouldUpdate` (src/server/routes.ts lines 340-343): all three conditions
must hold.  Thresholds and the recent-update count are JS numbers, modelled as
integers; the computed statistics are the loop's natural-number counters. -/
def shouldUpdate (stats : DiffStats) (t : Thresholds) (recentUpdateCount : Int) : Bool :=
  decide ((stats.linesChanged : Int) ≤ t.maxLinesForUpdate) &&
  decide ((stats.locationsChanged : Int) ≤ t.maxLocationsForUpdate) &&
  decide (recentUpdateCount < t.maxIterationsPerUpdate)

/-- Decimal digit characters, used to render numbers the way a JS template
literal renders them. -/
def digitChars : List Char := ['0', '1', '2', '3', '4', '5', '6', '7', '8', '9']

/-- Decimal digits of `n` (most significant first, empty for `0`), with an
explicit fuel argument so that the recursion is structural. -/
def natDigitsAux : Nat → Nat → List Char
  | 0, _ => []
  | fuel + 1, n =>
    if n = 0 then [] else natDigitsAux fuel (n / 10) ++ [digitChars.getD (n % 10) '0']

/-- Decimal rendering of a natural number, as JS `${n}` renders it. -/
def jsNat (n : Nat) : String :=
  if n = 0 then "0" else String.mk (natDigitsAux n n)

/-- Decimal rendering of an integer, as JS `${i}` renders it. -/
def jsInt (i : Int) : String :=
  if i < 0 then "-" ++ jsNat i.natAbs else jsNat i.toNat

/-- JS whitespace characters relevant to `String.prototype.trim`. -/
def jsWhitespace (c : Char) : Bool :=
  c = ' ' || c = '\t' || c = '\n' || c = '\r'

/-- Character-level `trim`: drop whitespace from both ends. -/
def jsTrimChars (l : List Char) : List Char :=
  ((l.dropWhile jsWhitespace).reverse.dropWhile jsWhitespace).reverse

/-- JS `String.prototype.trim`, applied by the rewrite-reasoning template. -/
def jsTrim (s : String) : String := String.mk (jsTrimChars s.data)

/-- The reasoning string of the `update` branch (src/server/routes.ts line 352). -/
def updateReasoning (stats : DiffStats) (t : Thresholds) (recentUpdateCount : Int) :
    String :=
  "Change is small enough (" ++ (jsNat stats.linesChanged ++ (" lines, " ++
    (jsNat stats.locationsChanged ++ (" locations) for an update. Iteration " ++
    (jsInt (recentUpdateCount + 1) ++ ("/" ++
    (jsInt t.maxIterationsPerUpdate ++ ".")))))))

/-- The reasoning string of the `rewrite` branch (src/server/routes.ts line 353):
three conditionally present fragments joined by spaces, then trimmed. -/
def rewriteReasoning (stats : DiffStats) (t : Thresholds) (recentUpdateCount : Int) :
    String :=
  jsTrim ("Change requires rewrite: " ++
    ((if (stats.linesChanged : Int) > t.maxLinesForUpdate then
        jsNat stats.linesChanged ++ (" lines exceeds " ++
          (jsInt t.maxLinesForUpdate ++ " limit"))
      else "") ++
    (" " ++
    ((if (stats.locationsChanged : Int) > t.maxLocationsForUpdate then
        jsNat stats.locationsChanged ++ (" locations exceeds " ++
          (jsInt t.maxLocationsForUpdate ++ " limit"))
      else "") ++
    (" " ++
    (if recentUpdateCount ≥ t.maxIterationsPerUpdate then "Max iterations reached"
      else ""))))))

/-- The recommendation record the handler sends back
(src/server/routes.ts lines 345-354). -/
structure Recommendation where
  decisionType : String
  linesChanged : Nat
  locationsChanged : Nat
  currentIterations : Int
  maxIterations : Int
  reasoning : String
deriving Repr, DecidableEq

/-- The classification policy applied to already-computed diff statistics,
a threshold configuration and a recent-update count — the spec's
`classify(stats, thresholds, recentUpdateCount)`, with the fields and the
reasoning strings exactly as the handler builds them. -/
def classify (stats : DiffStats) (t : Thresholds) (recentUpdateCount : Int) :
    Recommendation :=
  { decisionType := if shouldUpdate stats t recentUpdateCount then "update" else "rewrite"
    linesChanged := stats.linesChanged
    locationsChanged := stats.locationsChanged
    currentIterations := recentUpdateCount
    maxIterations := t.maxIterationsPerUpdate
    reasoning :=
      if shouldUpdate stats t recentUpdateCount then
        updateReasoning stats t recentUpdateCount
      else
        rewriteReasoning stats t recentUpdateCount }

/-- The spec's `evaluate`: diff statistics followed by classification. -/
def evaluate (before after : List String) (t : Thresholds) (recentUpdateCount : Int) :
    Recommendation :=
  classify (computeDiffStats before after) t recentUpdateCount

/-- Split a string at newline characters, as JS `content.split('\n')` does
(the accumulator holds the current segment reversed). -/
def splitNlAux : List Char → List Char → List String
  | [], acc => [String.mk acc.reverse]
  | c :: rest, acc =>
    if c = '\n' then String.mk acc.reverse :: splitNlAux rest []
    else splitNlAux rest (c :: acc)

/-- JS `content.split('\n')`. -/
def splitNl (s : String) : List String := splitNlAux s.data []

/-- A stored decision row, as the handler reads it from storage
(fields used: `artifactId`, `type`, `timestamp`). -/
structure StoredDecision where
  artifactId : String
  type : String
  timestamp : Int
deriving Repr, DecidableEq

/-- The handler's recent-update count (src/server/routes.ts lines 333-338):
decisions for this artifact, of type update, within the last hour of `now`. -/
def recentUpdatesCount (artifactId : String) (decisions : List StoredDecision)
    (now : Int) : Nat :=
  (decisions.filter fun d =>
    d.artifactId == artifactId && (d.type == "update" &&
      decide (now - d.timestamp < 3600000))).length

/-- The whole analyze-change computation, from the artifact content, the
proposed content, the session config and the ambient state (stored decisions
and the current clock) to the recommendation. -/
def analyzeChange (artifactContent newContent : String) (t : Thresholds)
    (artifactId : String) (decisions : List StoredDecision) (now : Int) :
    Recommendation :=
  classify (computeDiffStats (splitNl artifactContent) (splitNl newContent)) t
    (recentUpdatesCount artifactId decisions now)

/-- Whether index `i` is a changed line: the loop's comparison
`oldLines[i] !== newLines[i]`. -/
def diffAt (before after : List String) (i : Nat) : Bool :=
  decide (before[i]? ≠ after[i]?)

/-- Specification-side count of changed lines (from the claim's words): the
number of indices below `max` of the lengths at which the sides differ. -/
def specLinesChanged (before after : List String) : Nat :=
  ((List.range (max before.length after.length)).filter
    fun i => diffAt before after i).length

/-- Whether index `i` begins a maximal contiguous run of differing indices
(from the claim's words): it differs and is not immediately preceded by a
differing index. -/
def startsRun (before after : List String) (i : Nat) : Bool :=
  diffAt before after i && !(decide (0 < i) && diffAt before after (i - 1))

/-- Specification-side count of change locations (from the claim's words):
the number of indices that begin a contiguous run of differences. -/
def specLocationsChanged (before after : List String) : Nat :=
  ((List.range (max before.length after.length)).filter
    fun i => startsRun before after i).length

/-- The diff loop's step expressed on the boolean changed-flag of the index. -/
def boolStep (s : Nat × Nat × Bool) (b : Bool) : Nat × Nat × Bool :=
  if b then (s.1 + 1, if s.2.2 then s.2.1 else s.2.1 + 1, true)
  else (s.1, s.2.1, false)

/-- The list of changed-flags of all indices of the diff loop. -/
def diffFlags (before after : List String) : List Bool :=
  (List.range (max before.length after.length)).map (diffAt before after)

/-- Number of maximal runs of `true` in a flag list, given whether the
position just before the list was itself changed. -/
def runCount : List Bool → Bool → Nat
  | [], _ => 0
  | b :: rest, prev => (if b && !prev then 1 else 0) + runCount rest b

/-- The last flag of the list (the incoming flag if the list is empty). -/
def lastFlag : List Bool → Bool → Bool
  | [], prev => prev
  | b :: rest, _ => lastFlag rest b

/-- Occurrence of a character sequence inside another, used to read the
reasoning string: `m` occurs contiguously somewhere in `s`. -/
def occursIn (m s : List Char) : Prop := m <:+: s

instance (m s : List Char) : Decidable (occursIn m s) :=
  inferInstanceAs (Decidable (m <:+: s))

/-- Marker phrase of the line-count violation in the rewrite reasoning. -/
def linesMarker : String := "lines exceeds"

/-- Marker phrase of the location-count violation in the rewrite reasoning. -/
def locationsMarker : String := "locations exceeds"

/-- Marker phrase of the iteration-cap violation in the rewrite reasoning. -/
def iterationsMarker : String := "Max iterations reached"

/-- Characters that can appear in a rendered number: digits and the minus
sign.  Every marker phrase avoids them, every rendered number consists of
them, which separates marker occurrences from number segments. -/
def isSep (c : Char) : Bool := c.isDigit || c = '-'

theorem foldl_boolStep (D : List Bool) :
    ∀ (l loc : Nat) (prev : Bool),
      D.foldl boolStep (l, loc, prev) =
        (l + D.count true, loc + runCount D prev, lastFlag D prev) := by
  induction D with
  | nil => intro l loc prev; simp [runCount, lastFlag]
  | cons b rest ih =>
    intro l loc prev
    cases b
    · simp only [List.foldl_cons, boolStep, Bool.false_eq_true, if_false, runCount,
        lastFlag, ih, List.count_cons]
      simp
    · cases prev <;>
        simp only [List.foldl_cons, boolStep, if_true, runCount, lastFlag, ih,
          List.count_cons, Bool.and_self, Bool.not_false, Bool.not_true,
          Bool.and_true, Bool.and_false, Bool.true_and, Bool.false_and] <;>
        simp <;> omega

theorem diffStep_eq_boolStep (o n : List String) (s : Nat × Nat × Bool) (i : Nat) :
    diffStep o n s i = boolStep s (diffAt o n i) := by
  by_cases h : o[i]? = n[i]? <;> simp [diffStep, boolStep, diffAt, h]

theorem computeDiffStats_eq (o n : List String) :
    computeDiffStats o n =
      ⟨(diffFlags o n).count true, runCount (diffFlags o n) false⟩ := by
  have hstep : diffStep o n = fun s i => boolStep s (diffAt o n i) := by
    funext s i; exact diffStep_eq_boolStep o n s i
  have hfold : ∀ init : Nat × Nat × Bool,
      List.foldl (fun s i => boolStep s (diffAt o n i)) init
        (List.range (max o.length n.length)) =
      List.foldl boolStep init
        ((List.range (max o.length n.length)).map (diffAt o n)) :=
    fun init => (List.foldl_map (diffAt o n) boolStep (List.range _) init).symm
  have hdef : computeDiffStats o n =
      ⟨(List.foldl (diffStep o n) (0, 0, false)
          (List.range (max o.length n.length))).1,
       (List.foldl (diffStep o n) (0, 0, false)
          (List.range (max o.length n.length))).2.1⟩ := rfl
  rw [hdef, hstep, hfold, foldl_boolStep]
  simp [diffFlags]

theorem runCount_le_count (D : List Bool) : ∀ prev, runCount D prev ≤ D.count true := by
  induction D with
  | nil => intro prev; simp [runCount]
  | cons b rest ih =>
    intro prev
    cases b
    · simpa [runCount] using ih false
    · have := ih true
      simp only [runCount, List.count_cons, Bool.true_and]
      cases prev <;> simp <;> omega

theorem count_eq_zero_of_runCount_eq_zero (D : List Bool) :
    runCount D false = 0 → D.count true = 0 := by
  induction D with
  | nil => intro _; simp
  | cons b rest ih =>
    intro h
    cases b
    · simp only [runCount, Bool.false_and, if_false] at h
      simpa [List.count_cons] using ih (by omega)
    · simp [runCount] at h

theorem lastFlag_append_singleton (D : List Bool) (b : Bool) :
    ∀ prev, lastFlag (D ++ [b]) prev = b := by
  induction D with
  | nil => intro prev; simp [lastFlag]
  | cons d rest ih => intro prev; simpa [lastFlag] using ih d

theorem runCount_append_singleton (D : List Bool) (b : Bool) :
    ∀ prev, runCount (D ++ [b]) prev =
      runCount D prev + (if b && !(lastFlag D prev) then 1 else 0) := by
  induction D with
  | nil => intro prev; simp [runCount, lastFlag]
  | cons d rest ih =>
    intro prev
    rw [List.cons_append, runCount, runCount, ih d, lastFlag]
    omega

theorem lastFlag_range_map (f : Nat → Bool) (m : Nat) :
    lastFlag ((List.range m).map f) false = (decide (0 < m) && f (m - 1)) := by
  cases m with
  | zero => simp [lastFlag]
  | succ k =>
    rw [List.range_succ, List.map_append]
    simp [lastFlag_append_singleton]

theorem count_range_map (f : Nat → Bool) (m : Nat) :
    ((List.range m).map f).count true = ((List.range m).filter f).length := by
  rw [List.count_eq_countP, List.countP_map, ← List.countP_eq_length_filter]
  congr 1
  funext i
  simp

theorem runCount_range_map (f : Nat → Bool) (m : Nat) :
    runCount ((List.range m).map f) false =
      ((List.range m).filter fun i => f i && !(decide (0 < i) && f (i - 1))).length := by
  induction m with
  | zero => simp [runCount]
  | succ k ih =>
    rw [List.range_succ, List.map_append, List.map_cons, List.map_nil,
      runCount_append_singleton, List.filter_append, List.length_append, ih,
      lastFlag_range_map]
    simp only [List.filter_cons, List.filter_nil]
    by_cases h : (f k && !(decide (0 < k) && f (k - 1))) = true
    · rw [if_pos h, if_pos h]; simp
    · rw [if_neg h, if_neg h]; simp

theorem shouldUpdate_eq_true_iff (stats : DiffStats) (t : Thresholds) (rc : Int) :
    shouldUpdate stats t rc = true ↔
      ((stats.linesChanged : Int) ≤ t.maxLinesForUpdate ∧
       (stats.locationsChanged : Int) ≤ t.maxLocationsForUpdate ∧
       rc < t.maxIterationsPerUpdate) := by
  simp [shouldUpdate, and_assoc]

theorem decisionType_classify (stats : DiffStats) (t : Thresholds) (rc : Int) :
    (classify stats t rc).decisionType =
      if shouldUpdate stats t rc then "update" else "rewrite" := rfl

theorem update_ne_rewrite : ("update" : String) ≠ "rewrite" := by decide

theorem decisionType_update_iff (stats : DiffStats) (t : Thresholds) (rc : Int) :
    (classify stats t rc).decisionType = "update" ↔ shouldUpdate stats t rc = true := by
  rw [decisionType_classify]
  cases h : shouldUpdate stats t rc
  · simpa using update_ne_rewrite
  · simp

theorem decisionType_rewrite_iff (stats : DiffStats) (t : Thresholds) (rc : Int) :
    (classify stats t rc).decisionType = "rewrite" ↔ shouldUpdate stats t rc = false := by
  rw [decisionType_classify]
  cases h : shouldUpdate stats t rc
  · simp
  · simpa using update_ne_rewrite

theorem diffFlags_self_count (x : List String) : (diffFlags x x).count true = 0 := by
  rw [List.count_eq_zero]
  intro hmem
  rw [diffFlags, List.mem_map] at hmem
  obtain ⟨i, _, hi⟩ := hmem
  simp [diffAt] at hi

theorem computeDiffStats_self (x : List String) : computeDiffStats x x = ⟨0, 0⟩ := by
  rw [computeDiffStats_eq]
  have h1 := diffFlags_self_count x
  have h2 : runCount (diffFlags x x) false = 0 :=
    Nat.le_antisymm (h1 ▸ runCount_le_count _ false) (Nat.zero_le _)
  rw [h1, h2]

theorem count_zero_iff_eq (before after : List String) :
    (diffFlags before after).count true = 0 ↔ before = after := by
  constructor
  · intro h
    apply List.ext_getElem?
    intro i
    by_cases hi : i < max before.length after.length
    · cases hd : diffAt before after i
      · simpa [diffAt] using hd
      · exact absurd (List.count_eq_zero.mp h)
          (by
            simp only [not_not]
            rw [diffFlags]
            exact List.mem_map.mpr ⟨i, List.mem_range.mpr hi, hd⟩)
    · push_neg at hi
      rw [List.getElem?_eq_none (le_trans (le_max_left _ _) hi),
        List.getElem?_eq_none (le_trans (le_max_right _ _) hi)]
  · intro h
    subst h
    exact diffFlags_self_count before

/-- Claim C1: `classify` returns `update` exactly when all three conditions
hold (lines and locations within their bounds, recent-update count strictly
below the iteration cap), and `rewrite` in every other case. -/
theorem classify_update_iff_conditions (stats : DiffStats) (t : Thresholds) (rc : Int)
    (h1 : 0 ≤ t.maxLinesForUpdate) (h2 : 0 ≤ t.maxLocationsForUpdate)
    (h3 : 0 ≤ t.maxIterationsPerUpdate) (h4 : 0 ≤ rc) :
    ((classify stats t rc).decisionType = "update" ↔
      ((stats.linesChanged : Int) ≤ t.maxLinesForUpdate ∧
       (stats.locationsChanged : Int) ≤ t.maxLocationsForUpdate ∧
       rc < t.maxIterationsPerUpdate)) ∧
    (¬ ((stats.linesChanged : Int) ≤ t.maxLinesForUpdate ∧
        (stats.locationsChanged : Int) ≤ t.maxLocationsForUpdate ∧
        rc < t.maxIterationsPerUpdate) →
      (classify stats t rc).decisionType = "rewrite") := by
  constructor
  · rw [decisionType_update_iff, shouldUpdate_eq_true_iff]
  · intro h
    rw [decisionType_rewrite_iff, Bool.eq_false_iff]
    intro hu
    exact h ((shouldUpdate_eq_true_iff stats t rc).mp hu)

/-- Witness for claim C1 at a concrete instance: stats (3 lines, 1 location),
thresholds (20, 5, 4), recent-update count 2. -/
theorem classify_update_iff_conditions_witness :
    ((0 : Int) ≤ 20 ∧ (0 : Int) ≤ 5 ∧ (0 : Int) ≤ 4 ∧ (0 : Int) ≤ 2) ∧
    (((classify ⟨3, 1⟩ ⟨20, 5, 4⟩ 2).decisionType = "update" ↔
      (((3 : Nat) : Int) ≤ 20 ∧ ((1 : Nat) : Int) ≤ 5 ∧ (2 : Int) < 4)) ∧
     (¬ (((3 : Nat) : Int) ≤ 20 ∧ ((1 : Nat) : Int) ≤ 5 ∧ (2 : Int) < 4) →
       (classify ⟨3, 1⟩ ⟨20, 5, 4⟩ 2).decisionType = "rewrite")) :=
  ⟨⟨by decide, by decide, by decide, by decide⟩,
   classify_update_iff_conditions ⟨3, 1⟩ ⟨20, 5, 4⟩ 2 (by decide) (by decide)
     (by decide) (by decide)⟩

/-- Claim C2: the diff loop returns exactly the number of differing indices
(a missing side counts as different) as `linesChanged`, and the number of
maximal contiguous runs of differing indices as `locationsChanged`. -/
theorem computeDiffStats_spec_counts (before after : List String) :
    computeDiffStats before after =
      ⟨specLinesChanged before after, specLocationsChanged before after⟩ := by
  rw [computeDiffStats_eq]
  simp only [DiffStats.mk.injEq]
  constructor
  · rw [diffFlags, count_range_map, specLinesChanged]
  · rw [diffFlags, runCount_range_map, specLocationsChanged]
    rfl

/-- Claim C3 counterexample: with a negative `maxIterationsPerUpdate` the code
does not signal any error — it returns an ordinary classification (`rewrite`,
with a reasoning string), because no validation exists in the handler. -/
theorem negative_config_still_classifies :
    (classify ⟨0, 0⟩ ⟨10, 10, -1⟩ 0).decisionType = "rewrite" ∧
    (classify ⟨0, 0⟩ ⟨10, 10, -1⟩ 0).reasoning =
      "Change requires rewrite:   Max iterations reached" := by
  constructor
  · decide
  · decide

/-- Claim C3 amended: the classifier performs no validation and always returns
a classification; whenever one of the three thresholds is negative (the
recent-update count being non-negative), the returned decision is `rewrite`. -/
theorem negative_threshold_classifies_rewrite (stats : DiffStats) (t : Thresholds)
    (rc : Int) (hrc : 0 ≤ rc)
    (hneg : t.maxLinesForUpdate < 0 ∨ t.maxLocationsForUpdate < 0 ∨
      t.maxIterationsPerUpdate < 0) :
    (classify stats t rc).decisionType = "rewrite" := by
  rw [decisionType_rewrite_iff, Bool.eq_false_iff]
  intro hu
  obtain ⟨a, b, c⟩ := (shouldUpdate_eq_true_iff stats t rc).mp hu
  have hl : (0 : Int) ≤ (stats.linesChanged : Int) := Int.natCast_nonneg _
  have hloc : (0 : Int) ≤ (stats.locationsChanged : Int) := Int.natCast_nonneg _
  rcases hneg with h | h | h <;> omega

/-- Witness for the amended claim C3 at the spec's negative-input scenario
`maxIterationsPerUpdate = -1`. -/
theorem negative_threshold_classifies_rewrite_witness :
    ((0 : Int) ≤ 0 ∧ ((10 : Int) < 0 ∨ (10 : Int) < 0 ∨ (-1 : Int) < 0)) ∧
    (classify ⟨0, 0⟩ ⟨10, 10, -1⟩ 0).decisionType = "rewrite" :=
  ⟨⟨by decide, Or.inr (Or.inr (by decide))⟩,
   negative_threshold_classifies_rewrite ⟨0, 0⟩ ⟨10, 10, -1⟩ 0 (by decide)
     (Or.inr (Or.inr (by decide)))⟩

/-- Claim C5: with a zero diff, reaching the iteration cap exactly forces
`rewrite`, while one below the cap still yields `update` — the lines and
locations comparisons are inclusive and the iteration comparison strict. -/
theorem boundary_policy (stats : DiffStats) (t : Thresholds)
    (hl : stats.linesChanged = 0) (hloc : stats.locationsChanged = 0)
    (h1 : 0 ≤ t.maxLinesForUpdate) (h2 : 0 ≤ t.maxLocationsForUpdate)
    (h3 : 1 ≤ t.maxIterationsPerUpdate) :
    (classify stats t t.maxIterationsPerUpdate).decisionType = "rewrite" ∧
    (classify stats t (t.maxIterationsPerUpdate - 1)).decisionType = "update" := by
  constructor
  · rw [decisionType_rewrite_iff, Bool.eq_false_iff]
    intro hu
    obtain ⟨_, _, c⟩ := (shouldUpdate_eq_true_iff stats t _).mp hu
    omega
  · rw [decisionType_update_iff, shouldUpdate_eq_true_iff, hl, hloc]
    refine ⟨?_, ?_, ?_⟩ <;> simp <;> omega

/-- Witness for claim C5 with thresholds (20, 5, 4) and zero diff. -/
theorem boundary_policy_witness :
    (((⟨0, 0⟩ : DiffStats).linesChanged = 0 ∧ (⟨0, 0⟩ : DiffStats).locationsChanged = 0 ∧
      (0 : Int) ≤ 20 ∧ (0 : Int) ≤ 5 ∧ (1 : Int) ≤ 4) ∧
     (classify ⟨0, 0⟩ ⟨20, 5, 4⟩ 4).decisionType = "rewrite" ∧
     (classify ⟨0, 0⟩ ⟨20, 5, 4⟩ (4 - 1)).decisionType = "update") :=
  ⟨⟨by decide, by decide, by decide, by decide, by decide⟩,
   boundary_policy ⟨0, 0⟩ ⟨20, 5, 4⟩ (by decide) (by decide) (by decide) (by decide)
     (by decide)⟩

/-- Claim C6: once classified `rewrite`, increasing `linesChanged` or
`locationsChanged` (the other held fixed or also increased) keeps the
classification `rewrite`. -/
theorem rewrite_monotone (l loc l2 loc2 : Nat) (t : Thresholds) (rc : Int)
    (h : (classify ⟨l, loc⟩ t rc).decisionType = "rewrite")
    (hl : l ≤ l2) (hloc : loc ≤ loc2) :
    (classify ⟨l2, loc2⟩ t rc).decisionType = "rewrite" := by
  rw [decisionType_rewrite_iff, Bool.eq_false_iff] at h ⊢
  intro hu
  apply h
  rw [shouldUpdate_eq_true_iff] at hu ⊢
  obtain ⟨a, b, c⟩ := hu
  have hl2 : ((l : Int)) ≤ ((l2 : Int)) := Int.ofNat_le.mpr hl
  have hloc2 : ((loc : Int)) ≤ ((loc2 : Int)) := Int.ofNat_le.mpr hloc
  exact ⟨le_trans hl2 a, le_trans hloc2 b, c⟩

/-- Witness for claim C6: stats (30, 1) already classify `rewrite` under
thresholds (20, 5, 4); enlarging to (40, 2) keeps `rewrite`. -/
theorem rewrite_monotone_witness :
    ((classify ⟨30, 1⟩ ⟨20, 5, 4⟩ 0).decisionType = "rewrite" ∧ 30 ≤ 40 ∧ 1 ≤ 2) ∧
    (classify ⟨40, 2⟩ ⟨20, 5, 4⟩ 0).decisionType = "rewrite" :=
  ⟨⟨by decide, by decide, by decide⟩,
   rewrite_monotone 30 1 40 2 ⟨20, 5, 4⟩ 0 (by decide) (by decide) (by decide)⟩

/-- Claim C7: the diff of a sequence with itself is always (0, 0), and for an
equal before/after pair the classification is `update` whenever the
recent-update count is below the iteration cap. -/
theorem diff_self_zero_and_equal_update (x before after : List String) (t : Thresholds)
    (rc : Int) (heq : before = after) (hrc : rc < t.maxIterationsPerUpdate)
    (h1 : 0 ≤ t.maxLinesForUpdate) (h2 : 0 ≤ t.maxLocationsForUpdate) :
    computeDiffStats x x = ⟨0, 0⟩ ∧
    (evaluate before after t rc).decisionType = "update" := by
  refine ⟨computeDiffStats_self x, ?_⟩
  subst heq
  show (classify (computeDiffStats before before) t rc).decisionType = "update"
  rw [computeDiffStats_self, decisionType_update_iff, shouldUpdate_eq_true_iff]
  refine ⟨?_, ?_, hrc⟩ <;> simpa

/-- Witness for claim C7 at concrete sequences and thresholds (20, 5, 4). -/
theorem diff_self_zero_and_equal_update_witness :
    ((["b"] : List String) = ["b"] ∧ (0 : Int) < 4 ∧ (0 : Int) ≤ 20 ∧ (0 : Int) ≤ 5) ∧
    (computeDiffStats ["a"] ["a"] = ⟨0, 0⟩ ∧
     (evaluate ["b"] ["b"] ⟨20, 5, 4⟩ 0).decisionType = "update") :=
  ⟨⟨rfl, by decide, by decide, by decide⟩,
   diff_self_zero_and_equal_update ["a"] ["b"] ["b"] ⟨20, 5, 4⟩ 0 rfl (by decide)
     (by decide) (by decide)⟩

/-- Claim C8: the analyze-change computation consults the store and the clock
only through the recent-update count: two environments that agree on it give
identical recommendations, and the whole computation factors through
(before, after, thresholds, recentUpdateCount). -/
theorem analyzeChange_deterministic (art new : String) (t : Thresholds) (aid : String)
    (ds1 ds2 : List StoredDecision) (now1 now2 : Int)
    (h : recentUpdatesCount aid ds1 now1 = recentUpdatesCount aid ds2 now2) :
    analyzeChange art new t aid ds1 now1 = analyzeChange art new t aid ds2 now2 ∧
    analyzeChange art new t aid ds1 now1 =
      evaluate (splitNl art) (splitNl new) t (recentUpdatesCount aid ds1 now1) := by
  constructor
  · unfold analyzeChange
    rw [h]
  · rfl

/-- Witness for claim C8: a store with one stale update decision under an old
clock and an empty store agree on the count, hence on the result. -/
theorem analyzeChange_deterministic_witness :
    (recentUpdatesCount "x" [⟨"x", "update", 0⟩] 4000000 = recentUpdatesCount "x" [] 0) ∧
    (analyzeChange "a\nb" "a\nc" ⟨20, 5, 4⟩ "x" [⟨"x", "update", 0⟩] 4000000 =
       analyzeChange "a\nb" "a\nc" ⟨20, 5, 4⟩ "x" [] 0 ∧
     analyzeChange "a\nb" "a\nc" ⟨20, 5, 4⟩ "x" [⟨"x", "update", 0⟩] 4000000 =
       evaluate (splitNl "a\nb") (splitNl "a\nc") ⟨20, 5, 4⟩
         (recentUpdatesCount "x" [⟨"x", "update", 0⟩] 4000000)) :=
  ⟨by decide,
   analyzeChange_deterministic "a\nb" "a\nc" ⟨20, 5, 4⟩ "x" [⟨"x", "update", 0⟩] []
     4000000 0 (by decide)⟩

/-- Claim C9: the diff statistics satisfy
0 ≤ locationsChanged ≤ linesChanged ≤ max of the lengths, and each count is
zero exactly when the two sequences are equal. -/
theorem computeDiffStats_bounds (before after : List String) :
    0 ≤ (computeDiffStats before after).locationsChanged ∧
    (computeDiffStats before after).locationsChanged ≤
      (computeDiffStats before after).linesChanged ∧
    (computeDiffStats before after).linesChanged ≤ max before.length after.length ∧
    ((computeDiffStats before after).linesChanged = 0 ↔ before = after) ∧
    ((computeDiffStats before after).locationsChanged = 0 ↔ before = after) := by
  rw [computeDiffStats_eq]
  refine ⟨Nat.zero_le _, runCount_le_count _ false, ?_, ?_, ?_⟩
  · simpa [diffFlags] using List.count_le_length true (diffFlags before after)
  · exact count_zero_iff_eq before after
  · constructor
    · intro h
      exact (count_zero_iff_eq before after).mp (count_eq_zero_of_runCount_eq_zero _ h)
    · intro h
      have hc := (count_zero_iff_eq before after).mpr h
      exact Nat.le_antisymm (hc ▸ runCount_le_count _ false) (Nat.zero_le _)

/-- Claim C10: the diff statistics are symmetric in the two sequences. -/
theorem computeDiffStats_symm (before after : List String) :
    computeDiffStats before after = computeDiffStats after before := by
  have hflags : diffFlags before after = diffFlags after before := by
    rw [diffFlags, diffFlags, max_comm]
    apply List.map_congr_left
    intro i _
    rw [diffAt, diffAt]
    exact decide_eq_decide.mpr ne_comm
  rw [computeDiffStats_eq, computeDiffStats_eq, hflags]

theorem occ_app_left (m x y : List Char) (h : occursIn m x) : occursIn m (x ++ y) := by
  obtain ⟨s, t, rfl⟩ := h
  exact ⟨s, t ++ y, by simp [List.append_assoc]⟩

theorem occ_app_right (m x y : List Char) (h : occursIn m y) : occursIn m (x ++ y) := by
  obtain ⟨s, t, rfl⟩ := h
  exact ⟨x ++ s, t, by simp [List.append_assoc]⟩

theorem occ_of_occ_within (m s r : List Char) (h1 : occursIn m s) (h2 : occursIn s r) :
    occursIn m r := by
  obtain ⟨a, b, rfl⟩ := h2
  rw [List.append_assoc]
  exact occ_app_right m a _ (occ_app_left m s b h1)

theorem occ_of_pre (m z : List Char) (h : m <+: z) : occursIn m z := by
  obtain ⟨u, hu⟩ := h
  refine ⟨[], u, ?_⟩
  simpa using hu

theorem occ_cons_cases (m t : List Char) (c : Char) (h : occursIn m (c :: t)) :
    m <+: (c :: t) ∨ occursIn m t := by
  obtain ⟨s, u, he⟩ := h
  cases s with
  | nil =>
    left
    rw [List.nil_append] at he
    exact ⟨u, he⟩
  | cons a s' =>
    right
    simp only [List.cons_append] at he
    injection he with _ h2
    exact ⟨s', u, h2⟩

theorem pre_blocked (d y : List Char) (hd : d ≠ [])
    (hdc : ∀ c ∈ d, isSep c = true) :
    ∀ (x m : List Char), (∀ c ∈ m, isSep c = false) → m <+: x ++ (d ++ y) → m <+: x := by
  intro x
  induction x with
  | nil =>
    intro m hm h
    cases m with
    | nil => exact List.nil_prefix
    | cons a m' =>
      exfalso
      cases d with
      | nil => exact hd rfl
      | cons e d' =>
        obtain ⟨u, hu⟩ := h
        simp only [List.nil_append, List.cons_append] at hu
        injection hu with h1 _
        have h2 := hdc e (List.mem_cons_self e d')
        have h3 := hm a (List.mem_cons_self a m')
        rw [h1, h2] at h3
        exact Bool.noConfusion h3
  | cons b x' ih =>
    intro m hm h
    cases m with
    | nil => exact List.nil_prefix
    | cons a m' =>
      obtain ⟨u, hu⟩ := h
      simp only [List.cons_append] at hu
      injection hu with h1 h2
      obtain ⟨v, hv⟩ := ih m' (fun c hc => hm c (List.mem_cons_of_mem a hc)) ⟨u, h2⟩
      exact ⟨v, by rw [List.cons_append, hv, h1]⟩

theorem occ_skip_sep (y : List Char) :
    ∀ (d m : List Char), (∀ c ∈ d, isSep c = true) → (∀ c ∈ m, isSep c = false) →
      occursIn m (d ++ y) → occursIn m y := by
  intro d
  induction d with
  | nil => intro m _ _ h; rwa [List.nil_append] at h
  | cons e d' ih =>
    intro m hdc hm h
    rw [List.cons_append] at h
    rcases occ_cons_cases m _ e h with hp | ho
    · cases m with
      | nil => exact ⟨[], y, by simp⟩
      | cons a m' =>
        exfalso
        obtain ⟨u, hu⟩ := hp
        simp only [List.cons_append] at hu
        injection hu with h1 _
        have h2 := hdc e (List.mem_cons_self e d')
        have h3 := hm a (List.mem_cons_self a m')
        rw [h1, h2] at h3
        exact Bool.noConfusion h3
    · exact ih m (fun c hc => hdc c (List.mem_cons_of_mem e hc)) hm ho

theorem occ_split (m d y : List Char) (hd : d ≠ [])
    (hdc : ∀ c ∈ d, isSep c = true) (hm : ∀ c ∈ m, isSep c = false) :
    ∀ x, occursIn m (x ++ (d ++ y)) → occursIn m x ∨ occursIn m y := by
  intro x
  induction x with
  | nil =>
    intro h
    right
    rw [List.nil_append] at h
    exact occ_skip_sep y d m hdc hm h
  | cons b x' ih =>
    intro h
    rw [List.cons_append] at h
    rcases occ_cons_cases m _ b h with hp | ho
    · left
      have hp' : m <+: (b :: x') ++ (d ++ y) := by rwa [List.cons_append]
      exact occ_of_pre _ _ (pre_blocked d y hd hdc (b :: x') m hm hp')
    · rcases ih ho with h1 | h2
      · left
        exact occ_app_right m [b] x' h1
      · right
        exact h2

theorem occ_dropWhile (p : Char → Bool) :
    ∀ (s : List Char) (a : Char) (m : List Char), p a = false →
      occursIn (a :: m) s → occursIn (a :: m) (s.dropWhile p) := by
  intro s
  induction s with
  | nil =>
    intro a m _ h
    obtain ⟨u, v, hu⟩ := h
    exact absurd hu (by simp)
  | cons c t ih =>
    intro a m hpa h
    by_cases hpc : p c = true
    · rw [List.dropWhile_cons, if_pos hpc]
      rcases occ_cons_cases (a :: m) t c h with hp | ho
      · exfalso
        obtain ⟨u, hu⟩ := hp
        simp only [List.cons_append] at hu
        injection hu with h1 _
        rw [h1, hpc] at hpa
        exact Bool.noConfusion hpa
      · exact ih a m hpa ho
    · rw [List.dropWhile_cons, if_neg hpc]
      exact h

theorem occ_reversed (m s : List Char) (h : occursIn m s) :
    occursIn m.reverse s.reverse := by
  obtain ⟨u, v, rfl⟩ := h
  refine ⟨v.reverse, u.reverse, ?_⟩
  simp [List.reverse_append, List.append_assoc]

theorem dropWhile_tail_of (p : Char → Bool) (l : List Char) :
    ∃ u, u ++ l.dropWhile p = l := by
  induction l with
  | nil => exact ⟨[], rfl⟩
  | cons c t ih =>
    by_cases hpc : p c = true
    · obtain ⟨u, hu⟩ := ih
      refine ⟨c :: u, ?_⟩
      rw [List.dropWhile_cons, if_pos hpc, List.cons_append, hu]
    · refine ⟨[], ?_⟩
      rw [List.dropWhile_cons, if_neg hpc, List.nil_append]

theorem jsTrimChars_within (s : List Char) : occursIn (jsTrimChars s) s := by
  obtain ⟨u, hu⟩ := dropWhile_tail_of jsWhitespace s
  obtain ⟨v, hv⟩ := dropWhile_tail_of jsWhitespace (s.dropWhile jsWhitespace).reverse
  refine ⟨u, v.reverse, ?_⟩
  have h2 : List.dropWhile jsWhitespace s = jsTrimChars s ++ v.reverse := by
    have h3 := congrArg List.reverse hv
    rw [List.reverse_append, List.reverse_reverse] at h3
    exact h3.symm
  rw [List.append_assoc, ← h2, hu]

theorem occ_jsTrim_iff (m s : List Char) (hm : m ≠ [])
    (hh : jsWhitespace m.headI = false) (hl : jsWhitespace m.reverse.headI = false) :
    occursIn m (jsTrimChars s) ↔ occursIn m s := by
  constructor
  · intro h
    exact occ_of_occ_within m _ s h (jsTrimChars_within s)
  · intro h
    obtain ⟨a, m', rfl⟩ : ∃ a m', m = a :: m' := by
      cases m with
      | nil => exact absurd rfl hm
      | cons a m' => exact ⟨a, m', rfl⟩
    have h1 := occ_dropWhile jsWhitespace s a m' hh h
    have h2 := occ_reversed _ _ h1
    obtain ⟨b, r, hbr⟩ : ∃ b r, (a :: m').reverse = b :: r := by
      cases hr : (a :: m').reverse with
      | nil => exact absurd (congrArg List.length hr) (by simp)
      | cons b r => exact ⟨b, r, rfl⟩
    have hlb : jsWhitespace b = false := by
      rw [hbr] at hl
      exact hl
    rw [hbr] at h2
    have h3 := occ_dropWhile jsWhitespace _ b r hlb h2
    have h4 := occ_reversed _ _ h3
    rw [← hbr, List.reverse_reverse] at h4
    exact h4

theorem isSep_digitChars_getD (r : Nat) : isSep (digitChars.getD r '0') = true := by
  have hall : ∀ c ∈ digitChars, isSep c = true := by decide
  by_cases hr : r < digitChars.length
  · refine hall _ ?_
    rw [List.getD_eq_getElem digitChars '0' hr]
    exact List.getElem_mem hr
  · rw [List.getD_eq_default digitChars '0' (Nat.le_of_not_lt hr)]
    decide

theorem natDigitsAux_sep : ∀ fuel n, ∀ c ∈ natDigitsAux fuel n, isSep c = true := by
  intro fuel
  induction fuel with
  | zero => intro n c hc; simp [natDigitsAux] at hc
  | succ f ih =>
    intro n c hc
    rw [natDigitsAux] at hc
    by_cases hn : n = 0
    · rw [if_pos hn] at hc
      simp at hc
    · rw [if_neg hn] at hc
      rcases List.mem_append.mp hc with h1 | h2
      · exact ih _ c h1
      · have hcd : c = digitChars.getD (n % 10) '0' := by simpa using h2
        rw [hcd]
        exact isSep_digitChars_getD (n % 10)

theorem jsNat_data_sep (n : Nat) : ∀ c ∈ (jsNat n).data, isSep c = true := by
  rw [jsNat]
  by_cases hn : n = 0
  · rw [if_pos hn]
    intro c hc
    have hc0 : c = '0' := by simpa using hc
    rw [hc0]
    decide
  · rw [if_neg hn]
    intro c hc
    exact natDigitsAux_sep n n c hc

theorem jsNat_data_ne_nil (n : Nat) : (jsNat n).data ≠ [] := by
  rw [jsNat]
  by_cases hn : n = 0
  · rw [if_pos hn]
    decide
  · rw [if_neg hn]
    cases n with
    | zero => exact absurd rfl hn
    | succ k =>
      show natDigitsAux (k + 1) (k + 1) ≠ []
      rw [natDigitsAux, if_neg (Nat.succ_ne_zero k)]
      simp

theorem jsInt_data_sep (i : Int) : ∀ c ∈ (jsInt i).data, isSep c = true := by
  rw [jsInt]
  by_cases hi : i < 0
  · rw [if_pos hi]
    intro c hc
    rw [String.data_append] at hc
    rcases List.mem_append.mp hc with h1 | h2
    · have hcm : c = '-' := by simpa using h1
      rw [hcm]
      decide
    · exact jsNat_data_sep _ c h2
  · rw [if_neg hi]
    exact jsNat_data_sep _

theorem jsInt_data_ne_nil (i : Int) : (jsInt i).data ≠ [] := by
  rw [jsInt]
  by_cases hi : i < 0
  · rw [if_pos hi]
    rw [String.data_append]
    simp
  · rw [if_neg hi]
    exact jsNat_data_ne_nil _

theorem reasoning_of_rewrite (stats : DiffStats) (t : Thresholds) (rc : Int)
    (h : shouldUpdate stats t rc = false) :
    (classify stats t rc).reasoning = rewriteReasoning stats t rc := by
  show (if shouldUpdate stats t rc then updateReasoning stats t rc
    else rewriteReasoning stats t rc) = _
  rw [h]
  simp

theorem rewriteReasoning_data (stats : DiffStats) (t : Thresholds) (rc : Int) :
    (rewriteReasoning stats t rc).data =
      jsTrimChars (("Change requires rewrite: ").data ++
        ((if (stats.linesChanged : Int) > t.maxLinesForUpdate then
            (jsNat stats.linesChanged).data ++ ((" lines exceeds ").data ++
              ((jsInt t.maxLinesForUpdate).data ++ (" limit").data))
          else []) ++
        ((" ").data ++
        ((if (stats.locationsChanged : Int) > t.maxLocationsForUpdate then
            (jsNat stats.locationsChanged).data ++ ((" locations exceeds ").data ++
              ((jsInt t.maxLocationsForUpdate).data ++ (" limit").data))
          else []) ++
        ((" ").data ++
        (if rc ≥ t.maxIterationsPerUpdate then ("Max iterations reached").data
          else [])))))) := by
  have hmk : ∀ l : List Char, (String.mk l).data = l := fun _ => rfl
  have hemp : ("" : String).data = ([] : List Char) := rfl
  rw [rewriteReasoning, jsTrim, hmk]
  congr 1
  simp only [String.data_append, apply_ite String.data, hemp]

theorem occ_rewriteReasoning_iff (m : List Char) (stats : DiffStats) (t : Thresholds)
    (rc : Int) (hm : m ≠ []) (hh : jsWhitespace m.headI = false)
    (hl : jsWhitespace m.reverse.headI = false) :
    occursIn m (rewriteReasoning stats t rc).data ↔
      occursIn m (("Change requires rewrite: ").data ++
        ((if (stats.linesChanged : Int) > t.maxLinesForUpdate then
            (jsNat stats.linesChanged).data ++ ((" lines exceeds ").data ++
              ((jsInt t.maxLinesForUpdate).data ++ (" limit").data))
          else []) ++
        ((" ").data ++
        ((if (stats.locationsChanged : Int) > t.maxLocationsForUpdate then
            (jsNat stats.locationsChanged).data ++ ((" locations exceeds ").data ++
              ((jsInt t.maxLocationsForUpdate).data ++ (" limit").data))
          else []) ++
        ((" ").data ++
        (if rc ≥ t.maxIterationsPerUpdate then ("Max iterations reached").data
          else [])))))) := by
  rw [rewriteReasoning_data]
  exact occ_jsTrim_iff m _ hm hh hl

theorem occ_lines_iff (stats : DiffStats) (t : Thresholds) (rc : Int) :
    occursIn linesMarker.data (rewriteReasoning stats t rc).data ↔
      (stats.linesChanged : Int) > t.maxLinesForUpdate := by
  rw [occ_rewriteReasoning_iff linesMarker.data stats t rc (by decide) (by decide)
    (by decide)]
  constructor
  · intro hocc
    by_contra hnot
    rw [if_neg hnot] at hocc
    by_cases hb : (stats.locationsChanged : Int) > t.maxLocationsForUpdate
    · by_cases hc : rc ≥ t.maxIterationsPerUpdate
      · rw [if_pos hb, if_pos hc] at hocc
        simp only [List.nil_append, List.append_assoc] at hocc
        rw [← List.append_assoc] at hocc
        rcases occ_split _ _ _ (jsNat_data_ne_nil _) (jsNat_data_sep _) (by decide) _
          hocc with h1 | h1
        · exact absurd h1 (by decide)
        · rcases occ_split _ _ _ (jsInt_data_ne_nil _) (jsInt_data_sep _) (by decide) _
            h1 with h2 | h2
          · exact absurd h2 (by decide)
          · exact absurd h2 (by decide)
      · rw [if_pos hb, if_neg hc] at hocc
        simp only [List.nil_append, List.append_assoc] at hocc
        rw [← List.append_assoc] at hocc
        rcases occ_split _ _ _ (jsNat_data_ne_nil _) (jsNat_data_sep _) (by decide) _
          hocc with h1 | h1
        · exact absurd h1 (by decide)
        · rcases occ_split _ _ _ (jsInt_data_ne_nil _) (jsInt_data_sep _) (by decide) _
            h1 with h2 | h2
          · exact absurd h2 (by decide)
          · exact absurd h2 (by decide)
    · by_cases hc : rc ≥ t.maxIterationsPerUpdate
      · rw [if_neg hb, if_pos hc] at hocc
        simp only [List.nil_append] at hocc
        exact absurd hocc (by decide)
      · rw [if_neg hb, if_neg hc] at hocc
        simp only [List.nil_append] at hocc
        exact absurd hocc (by decide)
  · intro hv
    rw [if_pos hv]
    refine occ_app_right _ _ _ ?_
    refine occ_app_left _ _ _ ?_
    refine occ_app_right _ _ _ ?_
    refine occ_app_left _ _ _ ?_
    decide

theorem occ_locations_iff (stats : DiffStats) (t : Thresholds) (rc : Int) :
    occursIn locationsMarker.data (rewriteReasoning stats t rc).data ↔
      (stats.locationsChanged : Int) > t.maxLocationsForUpdate := by
  rw [occ_rewriteReasoning_iff locationsMarker.data stats t rc (by decide) (by decide)
    (by decide)]
  constructor
  · intro hocc
    by_contra hnot
    rw [if_neg hnot] at hocc
    by_cases ha : (stats.linesChanged : Int) > t.maxLinesForUpdate
    · by_cases hc : rc ≥ t.maxIterationsPerUpdate
      · rw [if_pos ha, if_pos hc] at hocc
        simp only [List.nil_append, List.append_assoc] at hocc
        rcases occ_split _ _ _ (jsNat_data_ne_nil _) (jsNat_data_sep _) (by decide) _
          hocc with h1 | h1
        · exact absurd h1 (by decide)
        · rcases occ_split _ _ _ (jsInt_data_ne_nil _) (jsInt_data_sep _) (by decide) _
            h1 with h2 | h2
          · exact absurd h2 (by decide)
          · exact absurd h2 (by decide)
      · rw [if_pos ha, if_neg hc] at hocc
        simp only [List.nil_append, List.append_assoc] at hocc
        rcases occ_split _ _ _ (jsNat_data_ne_nil _) (jsNat_data_sep _) (by decide) _
          hocc with h1 | h1
        · exact absurd h1 (by decide)
        · rcases occ_split _ _ _ (jsInt_data_ne_nil _) (jsInt_data_sep _) (by decide) _
            h1 with h2 | h2
          · exact absurd h2 (by decide)
          · exact absurd h2 (by decide)
    · by_cases hc : rc ≥ t.maxIterationsPerUpdate
      · rw [if_neg ha, if_pos hc] at hocc
        simp only [List.nil_append] at hocc
        exact absurd hocc (by decide)
      · rw [if_neg ha, if_neg hc] at hocc
        simp only [List.nil_append] at hocc
        exact absurd hocc (by decide)
  · intro hv
    rw [if_pos hv]
    refine occ_app_right _ _ _ ?_
    refine occ_app_right _ _ _ ?_
    refine occ_app_right _ _ _ ?_
    refine occ_app_left _ _ _ ?_
    refine occ_app_right _ _ _ ?_
    refine occ_app_left _ _ _ ?_
    decide

theorem occ_iterations_iff (stats : DiffStats) (t : Thresholds) (rc : Int) :
    occursIn iterationsMarker.data (rewriteReasoning stats t rc).data ↔
      rc ≥ t.maxIterationsPerUpdate := by
  rw [occ_rewriteReasoning_iff iterationsMarker.data stats t rc (by decide) (by decide)
    (by decide)]
  constructor
  · intro hocc
    by_contra hnot
    rw [if_neg hnot] at hocc
    by_cases ha : (stats.linesChanged : Int) > t.maxLinesForUpdate
    · by_cases hb : (stats.locationsChanged : Int) > t.maxLocationsForUpdate
      · rw [if_pos ha, if_pos hb] at hocc
        simp only [List.nil_append, List.append_assoc] at hocc
        rcases occ_split _ _ _ (jsNat_data_ne_nil _) (jsNat_data_sep _) (by decide) _
          hocc with h1 | h1
        · exact absurd h1 (by decide)
        · rcases occ_split _ _ _ (jsInt_data_ne_nil _) (jsInt_data_sep _) (by decide) _
            h1 with h2 | h2
          · exact absurd h2 (by decide)
          · rw [← List.append_assoc] at h2
            rcases occ_split _ _ _ (jsNat_data_ne_nil _) (jsNat_data_sep _) (by decide) _
              h2 with h3 | h3
            · exact absurd h3 (by decide)
            · rcases occ_split _ _ _ (jsInt_data_ne_nil _) (jsInt_data_sep _) (by decide)
                _ h3 with h4 | h4
              · exact absurd h4 (by decide)
              · exact absurd h4 (by decide)
      · rw [if_pos ha, if_neg hb] at hocc
        simp only [List.nil_append, List.append_assoc] at hocc
        rcases occ_split _ _ _ (jsNat_data_ne_nil _) (jsNat_data_sep _) (by decide) _
          hocc with h1 | h1
        · exact absurd h1 (by decide)
        · rcases occ_split _ _ _ (jsInt_data_ne_nil _) (jsInt_data_sep _) (by decide) _
            h1 with h2 | h2
          · exact absurd h2 (by decide)
          · exact absurd h2 (by decide)
    · by_cases hb : (stats.locationsChanged : Int) > t.maxLocationsForUpdate
      · rw [if_neg ha, if_pos hb] at hocc
        simp only [List.nil_append, List.append_assoc] at hocc
        rw [← List.append_assoc] at hocc
        rcases occ_split _ _ _ (jsNat_data_ne_nil _) (jsNat_data_sep _) (by decide) _
          hocc with h1 | h1
        · exact absurd h1 (by decide)
        · rcases occ_split _ _ _ (jsInt_data_ne_nil _) (jsInt_data_sep _) (by decide) _
            h1 with h2 | h2
          · exact absurd h2 (by decide)
          · exact absurd h2 (by decide)
      · rw [if_neg ha, if_neg hb] at hocc
        simp only [List.nil_append] at hocc
        exact absurd hocc (by decide)
  · intro hv
    rw [if_pos hv]
    refine occ_app_right _ _ _ ?_
    refine occ_app_right _ _ _ ?_
    refine occ_app_right _ _ _ ?_
    refine occ_app_right _ _ _ ?_
    refine occ_app_right _ _ _ ?_
    decide

/-- Claim C4: for a `rewrite` classification the rationale names each violated
condition individually — the phrase naming the line-count violation appears
exactly when `linesChanged` exceeds its bound, the location-count phrase
exactly when `locationsChanged` exceeds its bound, and the iteration-cap
phrase exactly when the recent-update count has reached the cap; and in the
spec's Scenario C (empty before, 32 distinct new lines, thresholds (20, 5, 4),
count 0) the stats are (32, 1), the decision is `rewrite`, and the rationale
mentions the line-count violation but not the location count. -/
theorem rewrite_reasoning_names_violations (stats : DiffStats) (t : Thresholds)
    (rc : Int) (h : shouldUpdate stats t rc = false) :
    ((occursIn linesMarker.data ((classify stats t rc).reasoning).data ↔
        (stats.linesChanged : Int) > t.maxLinesForUpdate) ∧
     (occursIn locationsMarker.data ((classify stats t rc).reasoning).data ↔
        (stats.locationsChanged : Int) > t.maxLocationsForUpdate) ∧
     (occursIn iterationsMarker.data ((classify stats t rc).reasoning).data ↔
        rc ≥ t.maxIterationsPerUpdate)) ∧
    (computeDiffStats [] ((List.range 32).map jsNat) = ⟨32, 1⟩ ∧
     (evaluate [] ((List.range 32).map jsNat) ⟨20, 5, 4⟩ 0).decisionType = "rewrite" ∧
     occursIn linesMarker.data
       ((evaluate [] ((List.range 32).map jsNat) ⟨20, 5, 4⟩ 0).reasoning).data ∧
     ¬ occursIn locationsMarker.data
       ((evaluate [] ((List.range 32).map jsNat) ⟨20, 5, 4⟩ 0).reasoning).data) := by
  refine ⟨?_, by decide, by decide, by decide, by decide⟩
  rw [reasoning_of_rewrite stats t rc h]
  exact ⟨occ_lines_iff stats t rc, occ_locations_iff stats t rc,
    occ_iterations_iff stats t rc⟩

/-- Witness for claim C4 at the Scenario C statistics (32, 1), thresholds
(20, 5, 4), recent-update count 0, which classify as `rewrite`. -/
theorem rewrite_reasoning_names_violations_witness :
    (shouldUpdate ⟨32, 1⟩ ⟨20, 5, 4⟩ 0 = false) ∧
    (((occursIn linesMarker.data ((classify ⟨32, 1⟩ ⟨20, 5, 4⟩ 0).reasoning).data ↔
        ((32 : Nat) : Int) > 20) ∧
      (occursIn locationsMarker.data ((classify ⟨32, 1⟩ ⟨20, 5, 4⟩ 0).reasoning).data ↔
        ((1 : Nat) : Int) > 5) ∧
      (occursIn iterationsMarker.data ((classify ⟨32, 1⟩ ⟨20, 5, 4⟩ 0).reasoning).data ↔
        (0 : Int) ≥ 4)) ∧
     (computeDiffStats [] ((List.range 32).map jsNat) = ⟨32, 1⟩ ∧
      (evaluate [] ((List.range 32).map jsNat) ⟨20, 5, 4⟩ 0).decisionType = "rewrite" ∧
      occursIn linesMarker.data
        ((evaluate [] ((List.range 32).map jsNat) ⟨20, 5, 4⟩ 0).reasoning).data ∧
      ¬ occursIn locationsMarker.data
        ((evaluate [] ((List.range 32).map jsNat) ⟨20, 5, 4⟩ 0).reasoning).data)) :=
  ⟨by decide, rewrite_reasoning_names_violations ⟨32, 1⟩ ⟨20, 5, 4⟩ 0 (by decide)⟩

end Studio
